import Mathlib

set_option maxRecDepth 40000

/-!
Verification of the matchmaking-and-session coordinator of the uschika
server (`src/server/index.js`, current revision: the hardened variant with
rate limiting and input sanitization).

The embedding models the socket-event block: the FIFO waiting queue
(`waitingUsers`), the active-session registry (`activeChats`, a map from
socket id to `{ partnerId, roomId }`), the socket.io room membership used
for message delivery, and the per-socket authenticated user attached by the
`login` handler.  Handlers become pure functions from a server state and an
inbound event to a new state plus the emitted notifications and the
messages handed to the persistence layer.  Socket ids are natural numbers;
the stateful per-socket rate limiter (`checkSocketRateLimit`, peripheral
per the design) is abstracted as a boolean outcome carried by the event;
the clock (`Date.now()`) is a natural-number event parameter.
-/

/-- An authenticated user as stored on `socket.user` by the `login`
handler (`user._id` is modelled as a natural number `uid`). -/
structure UserT where
  uid : Nat
  email : String
  displayName : String
deriving Repr, DecidableEq

/-- One entry of `activeChats`: `{ partnerId, roomId }`. -/
structure ChatInfo where
  partnerId : Nat
  roomId : String
deriving Repr, DecidableEq

/-- The `content` field of a `sendMessage` payload: a JS value that is
either a string or something of another type (`typeof content !== 'string'`). -/
inductive Content where
  | str (s : String)
  | nonStr
deriving Repr, DecidableEq

/-- Server-to-client notifications emitted by the socket-event block. -/
inductive Notif where
  | unauthorized
  | loginSuccess (u : UserT)
  | searching
  | searchStopped
  | matched (roomId : String)
  | receiveMessage (senderUid : Nat) (content : String) (timestamp : Nat)
  | partnerDisconnected
deriving Repr, DecidableEq

/-- A message handed to the persistence layer (`Message.create`). -/
structure PMsg where
  roomId : String
  senderUid : Nat
  content : String
deriving Repr, DecidableEq

/-- The observable output of one handler run: notifications, each already
resolved to the receiving socket id, and persisted messages. -/
structure StepOut where
  notifs : List (Nat × Notif)
  persisted : List PMsg
deriving Repr, DecidableEq

/-- Association-list lookup, modelling `Map.get` (first entry wins). -/
def mapGet {κ α : Type} [DecidableEq κ] (m : List (κ × α)) (k : κ) : Option α :=
  (m.find? (fun p => decide (p.1 = k))).map (fun p => p.2)

/-- Model of `Map.set`: replace the value in place if the key is present, otherwise
append a new entry. -/
def mapSet {κ α : Type} [DecidableEq κ] (m : List (κ × α)) (k : κ) (v : α) : List (κ × α) :=
  if (m.find? (fun p => decide (p.1 = k))).isSome then
    m.map (fun p => if p.1 = k then (k, v) else p)
  else m ++ [(k, v)]

/-- Model of `Map.delete`: drop every entry with the given key. -/
def mapDel {κ α : Type} [DecidableEq κ] (m : List (κ × α)) (k : κ) : List (κ × α) :=
  m.filter (fun p => decide (p.1 ≠ k))

/-- The shared mutable state of the socket-event block: the connection
registry (socket id paired with the optional `socket.user` attached by
`login`; absence from the list means the socket is disconnected), the FIFO
`waitingUsers` queue (socket ids, insertion order), the `activeChats`
session table, and socket.io room membership. -/
structure ServerState where
  conns : List (Nat × Option UserT)
  waitingUsers : List Nat
  activeChats : List (Nat × ChatInfo)
  rooms : List (String × List Nat)
deriving Repr, DecidableEq

/-- The `socket.user` attached to a given socket id (`none` when unauthenticated or
disconnected). -/
def userOf (st : ServerState) (sid : Nat) : Option UserT :=
  (mapGet st.conns sid).getD none

/-- Whether the socket is currently connected (present in the registry). -/
def connectedB (st : ServerState) (sid : Nat) : Bool :=
  (mapGet st.conns sid).isSome

/-- The constant `MAX_MESSAGE_LENGTH` (src/server/index.js line 297). -/
def MAX_MESSAGE_LENGTH : Nat := 1000

/-- The helper `sanitizeInput(str, maxLength)`, i.e. `str.trim().slice(0, maxLength)`
(src/server/index.js lines 428-431), modelled directly over the character
list: `trim` drops leading and trailing whitespace, `slice(0, n)` keeps
the first `n` characters.  (JS `trim` removes Unicode whitespace; the
model uses `Char.isWhitespace`, which agrees on ASCII input.  The
non-string branch returning `''` is handled by the caller's `typeof`
check in this model.) -/
def sanitizeInput (s : String) (maxLength : Nat) : String :=
  String.mk ((((s.data.dropWhile Char.isWhitespace).reverse.dropWhile
    Char.isWhitespace).reverse).take maxLength)

/-- The room identifier `room-${socket.id}-${partnerSocket.id}`. -/
def roomIdFor (sid pid : Nat) : String :=
  "room-" ++ toString sid ++ "-" ++ toString pid

/-- Members of a socket.io room (empty when the room does not exist). -/
def roomMembers (rooms : List (String × List Nat)) (r : String) : List Nat :=
  (mapGet rooms r).getD []

/-- Model of `socket.join(roomId)` (idempotent: socket.io rooms are sets). -/
def joinRoom (rooms : List (String × List Nat)) (r : String) (sid : Nat) :
    List (String × List Nat) :=
  let ms := roomMembers rooms r
  if sid ∈ ms then rooms else mapSet rooms r (ms ++ [sid])

/-- Model of `socket.leave(roomId)`. -/
def leaveRoom (rooms : List (String × List Nat)) (r : String) (sid : Nat) :
    List (String × List Nat) :=
  match mapGet rooms r with
  | some ms => mapSet rooms r (ms.filter (fun x => x ≠ sid))
  | none => rooms

/-- socket.io removes a disconnecting socket from all of its rooms before
the server-side `disconnect` handler runs. -/
def leaveAll (rooms : List (String × List Nat)) (sid : Nat) :
    List (String × List Nat) :=
  rooms.map (fun p => (p.1, p.2.filter (fun x => x ≠ sid)))

/-- The predicate of `waitingUsers.findIndex((waitingSocket) =>
waitingSocket.user.email !== socket.user.email)` (lines 547-549).  A queue
entry without an attached user would make the JS expression throw; every
queue member has one in reachable states (the `search` handler is the only
writer and requires `socket.user`), and such an entry is treated as
ineligible here. -/
def eligibleFor (st : ServerState) (email : String) (wsid : Nat) : Bool :=
  match userOf st wsid with
  | some wu => decide (wu.email ≠ email)
  | none => false

/-- The function `removeFirst q sid` is the queue-removal idiom
`const index = q.findIndex(s => s.id === socket.id); if (index !== -1)
q.splice(index, 1)` used by `stopSearch` and `disconnect`. -/
def removeFirst (q : List Nat) (sid : Nat) : List Nat :=
  let i := q.findIdx (fun x => x == sid)
  if i < q.length then q.eraseIdx i else q

/-- The `search` handler (lines 526-572).  `rateOk` is the outcome of
`checkSocketRateLimit(socket.id, 'search', 10)`. -/
def searchStep (st : ServerState) (sid : Nat) (rateOk : Bool) :
    ServerState × StepOut :=
  match userOf st sid with
  | none => (st, ⟨[(sid, Notif.unauthorized)], []⟩)
  | some u =>
    if rateOk then
      if st.waitingUsers.contains sid then
        (st, ⟨[(sid, Notif.searching)], []⟩)
      else
        match st.waitingUsers[st.waitingUsers.findIdx (eligibleFor st u.email)]? with
        | some pid =>
          ({ st with
              waitingUsers :=
                st.waitingUsers.eraseIdx (st.waitingUsers.findIdx (eligibleFor st u.email)),
              rooms :=
                joinRoom (joinRoom st.rooms (roomIdFor sid pid) sid) (roomIdFor sid pid) pid,
              activeChats :=
                mapSet (mapSet st.activeChats sid ⟨pid, roomIdFor sid pid⟩) pid
                  ⟨sid, roomIdFor sid pid⟩ },
           ⟨[(sid, Notif.matched (roomIdFor sid pid)),
             (pid, Notif.matched (roomIdFor sid pid))], []⟩)
        | none =>
          ({ st with waitingUsers := st.waitingUsers ++ [sid] },
           ⟨[(sid, Notif.searching)], []⟩)
    else (st, ⟨[], []⟩)

/-- The `stopSearch` handler (lines 575-580): remove from the queue if
present, then emit `searchStopped` unconditionally. -/
def stopSearchStep (st : ServerState) (sid : Nat) : ServerState × StepOut :=
  ({ st with waitingUsers := removeFirst st.waitingUsers sid },
   ⟨[(sid, Notif.searchStopped)], []⟩)

/-- The `sendMessage` handler (lines 583-629).  `rateOk` is the outcome of
`checkSocketRateLimit(socket.id, 'message', 30)`; `now` is `Date.now()`. -/
def sendMessageStep (st : ServerState) (sid : Nat) (content : Content)
    (rateOk : Bool) (now : Nat) : ServerState × StepOut :=
  if rateOk then
    match mapGet st.activeChats sid, userOf st sid with
    | some ci, some u =>
      match content with
      | Content.nonStr => (st, ⟨[], []⟩)
      | Content.str s =>
        let sc := sanitizeInput s MAX_MESSAGE_LENGTH
        if sc.length = 0 then (st, ⟨[], []⟩)
        else
          let recips := (roomMembers st.rooms ci.roomId).filter (fun x => x ≠ sid)
          (st, ⟨recips.map (fun x => (x, Notif.receiveMessage u.uid sc now)),
                [⟨ci.roomId, u.uid, sc⟩]⟩)
    | _, _ => (st, ⟨[], []⟩)
  else (st, ⟨[], []⟩)

/-- The `endChat` handler (lines 632-645): the `partnerDisconnected` emit
to the room happens before either side leaves it. -/
def endChatStep (st : ServerState) (sid : Nat) : ServerState × StepOut :=
  match mapGet st.activeChats sid with
  | none => (st, ⟨[], []⟩)
  | some ci =>
    let recips := (roomMembers st.rooms ci.roomId).filter (fun x => x ≠ sid)
    let rooms1 := leaveRoom st.rooms ci.roomId sid
    let rooms2 :=
      if connectedB st ci.partnerId then leaveRoom rooms1 ci.roomId ci.partnerId
      else rooms1
    ({ st with
        rooms := rooms2,
        activeChats := mapDel (mapDel st.activeChats sid) ci.partnerId },
     ⟨recips.map (fun x => (x, Notif.partnerDisconnected)), []⟩)

/-- The `disconnect` handler (lines 648-670), run after socket.io has
removed the socket from its rooms; afterwards the socket itself is gone
from the registry. -/
def disconnectStep (st : ServerState) (sid : Nat) : ServerState × StepOut :=
  let rooms0 := leaveAll st.rooms sid
  let q' := removeFirst st.waitingUsers sid
  match mapGet st.activeChats sid with
  | none =>
    ({ conns := mapDel st.conns sid, waitingUsers := q',
       activeChats := st.activeChats, rooms := rooms0 }, ⟨[], []⟩)
  | some ci =>
    let recips := (roomMembers rooms0 ci.roomId).filter (fun x => x ≠ sid)
    ({ conns := mapDel st.conns sid, waitingUsers := q',
       activeChats := mapDel (mapDel st.activeChats sid) ci.partnerId,
       rooms := rooms0 },
     ⟨recips.map (fun x => (x, Notif.partnerDisconnected)), []⟩)

/-- The `login` handler (lines 482-523).  `res` abstracts the collaborator
work (`verifyToken`, email validation, the user lookup/creation): `some u`
is the success path storing `socket.user` and emitting `loginSuccess`;
`none` covers every failure path, which emits `unauthorized` and calls
`socket.disconnect()`, in turn firing the `disconnect` handler. -/
def loginStep (st : ServerState) (sid : Nat) (res : Option UserT) :
    ServerState × StepOut :=
  match res with
  | none =>
    let p := disconnectStep st sid
    (p.1, ⟨(sid, Notif.unauthorized) :: p.2.notifs, p.2.persisted⟩)
  | some u =>
    ({ st with conns := mapSet st.conns sid (some u) },
     ⟨[(sid, Notif.loginSuccess u)], []⟩)

/-- A new socket connection (`io.on('connection', ...)`); socket ids are
unique, so connecting an id already present is a no-op of the model. -/
def connectStep (st : ServerState) (sid : Nat) : ServerState × StepOut :=
  if connectedB st sid then (st, ⟨[], []⟩)
  else ({ st with conns := st.conns ++ [(sid, none)] }, ⟨[], []⟩)

/-- Inbound events of the core, tagged with the originating socket id.
`rateOk` parameters carry the outcome of the peripheral socket rate
limiter; `now` carries `Date.now()`. -/
inductive Event where
  | connect (sid : Nat)
  | login (sid : Nat) (res : Option UserT)
  | search (sid : Nat) (rateOk : Bool)
  | stopSearch (sid : Nat)
  | sendMessage (sid : Nat) (content : Content) (rateOk : Bool) (now : Nat)
  | endChat (sid : Nat)
  | disconnect (sid : Nat)
deriving Repr, DecidableEq

/-- One event processed to completion (the single-threaded event loop:
handlers never interleave).  Handlers are registered per live socket, so an
event from a socket that is not connected does nothing. -/
def step (st : ServerState) (e : Event) : ServerState × StepOut :=
  match e with
  | Event.connect sid => connectStep st sid
  | Event.login sid res =>
    if connectedB st sid then loginStep st sid res else (st, ⟨[], []⟩)
  | Event.search sid rateOk =>
    if connectedB st sid then searchStep st sid rateOk else (st, ⟨[], []⟩)
  | Event.stopSearch sid =>
    if connectedB st sid then stopSearchStep st sid else (st, ⟨[], []⟩)
  | Event.sendMessage sid c rateOk now =>
    if connectedB st sid then sendMessageStep st sid c rateOk now else (st, ⟨[], []⟩)
  | Event.endChat sid =>
    if connectedB st sid then endChatStep st sid else (st, ⟨[], []⟩)
  | Event.disconnect sid =>
    if connectedB st sid then disconnectStep st sid else (st, ⟨[], []⟩)

/-- The freshly started server: no connections, empty queue, empty session
table. -/
def initState : ServerState := ⟨[], [], [], []⟩

/-- Run a list of events from a given state. -/
def runFrom (st : ServerState) (es : List Event) : ServerState :=
  es.foldl (fun s e => (step s e).1) st

/-- Run a list of events from the initial state; the reachable states of
the server are exactly the values of `run`. -/
def run (es : List Event) : ServerState :=
  runFrom initState es

/-- The session-table symmetry property of the spec: every entry's partner
has an entry pointing back with the same room identifier (decidable form,
evaluated over the entries of the table). -/
def chatSym (chats : List (Nat × ChatInfo)) : Bool :=
  chats.all (fun p =>
    match mapGet chats p.1 with
    | none => true
    | some ci =>
      match mapGet chats ci.partnerId with
      | some cj => decide (cj.partnerId = p.1) && decide (cj.roomId = ci.roomId)
      | none => false)

/-- Session-table symmetry, propositional form. -/
def SymP (chats : List (Nat × ChatInfo)) : Prop :=
  ∀ a ci, mapGet chats a = some ci →
    mapGet chats ci.partnerId = some ⟨a, ci.roomId⟩

/-- Events that never issue a `search` from a socket that already has a
session-table entry (the guard the spec postulates but the code lacks). -/
def GoodEvB (st : ServerState) (e : Event) : Bool :=
  match e with
  | Event.search sid _ => (mapGet st.activeChats sid).isNone
  | _ => true

/-- States reachable by traces in which no already-matched socket issues a
`search` request. -/
inductive ReachableG : ServerState → Prop where
  | init : ReachableG initState
  | next {st : ServerState} {e : Event} :
      ReachableG st → GoodEvB st e = true → ReachableG (step st e).1

def uA : UserT := ⟨0, "a@usc.edu.ph", "a"⟩
def uB : UserT := ⟨1, "b@usc.edu.ph", "b"⟩
def uC : UserT := ⟨2, "c@usc.edu.ph", "c"⟩

/-- The trace behind the symmetry counterexample: three authenticated
sockets; 0 and 1 get matched; 2 starts waiting; then the already-matched
socket 1 searches again and is matched with 2, leaving socket 0's entry
pointing at a partner whose entry no longer points back. -/
def breakTrace : List Event :=
  [Event.connect 0, Event.login 0 (some uA),
   Event.connect 1, Event.login 1 (some uB),
   Event.connect 2, Event.login 2 (some uC),
   Event.search 0 true, Event.search 1 true, Event.search 2 true,
   Event.search 1 true]

/-- The inductive invariant of the restricted system: session-table
symmetry, no duplicate waiting entries, waiting sockets have no session,
and waiting sockets are authenticated. -/
def InvG (st : ServerState) : Prop :=
  SymP st.activeChats ∧ st.waitingUsers.Nodup ∧
    (∀ w ∈ st.waitingUsers, mapGet st.activeChats w = none) ∧
    (∀ w ∈ st.waitingUsers, (userOf st w).isSome = true)

/-- Two authenticated sockets 0 and 1 paired into `room-1-0`. -/
def pairTrace : List Event :=
  [Event.connect 0, Event.login 0 (some uA),
   Event.connect 1, Event.login 1 (some uB),
   Event.search 0 true, Event.search 1 true]

/-- One authenticated, idle socket (not searching, not matched). -/
def idleTrace : List Event :=
  [Event.connect 0, Event.login 0 (some uA)]

/-- One connected socket that never authenticated. -/
def unauthTrace : List Event :=
  [Event.connect 0]


theorem mapGet_set_self {κ α : Type} [DecidableEq κ] (m : List (κ × α)) (k : κ) (v : α) :
    mapGet (mapSet m k v) k = some v := by
  unfold mapGet mapSet
  by_cases hi : (m.find? (fun p => decide (p.1 = k))).isSome
  · rw [if_pos hi]
    revert hi
    induction m with
    | nil => intro hi; simp at hi
    | cons p m ih =>
      intro hi
      by_cases hp : p.1 = k
      · simp only [List.map_cons, if_pos hp]
        rw [List.find?_cons_of_pos _ (by simp)]
        rfl
      · simp only [List.map_cons, if_neg hp]
        rw [List.find?_cons_of_neg _ (by simpa using hp)]
        rw [List.find?_cons_of_neg _ (by simpa using hp)] at hi
        exact ih hi
  · rw [if_neg hi]
    rw [Option.not_isSome_iff_eq_none] at hi
    rw [List.find?_append, hi]
    simp

theorem mapGet_set_ne {κ α : Type} [DecidableEq κ] (m : List (κ × α)) (k k' : κ) (v : α)
    (h : k' ≠ k) : mapGet (mapSet m k v) k' = mapGet m k' := by
  have hkk' : ¬ (k = k') := fun hh => h hh.symm
  unfold mapGet mapSet
  by_cases hi : (m.find? (fun p => decide (p.1 = k))).isSome
  · rw [if_pos hi]
    clear hi
    congr 1
    induction m with
    | nil => rfl
    | cons p m ih =>
      by_cases hp : p.1 = k
      · simp only [List.map_cons, if_pos hp]
        rw [List.find?_cons_of_neg _ (by simpa using hkk')]
        rw [List.find?_cons_of_neg _ (by simp only [hp]; simpa using hkk')]
        exact ih
      · simp only [List.map_cons, if_neg hp]
        by_cases hq : p.1 = k'
        · rw [List.find?_cons_of_pos _ (by simpa using hq),
            List.find?_cons_of_pos _ (by simpa using hq)]
        · rw [List.find?_cons_of_neg _ (by simpa using hq),
            List.find?_cons_of_neg _ (by simpa using hq)]
          exact ih
  · rw [if_neg hi]
    congr 1
    rw [List.find?_append]
    have hsing : ([(k, v)].find? (fun p => decide (p.1 = k'))) = none := by
      simp [hkk']
    rw [hsing]
    cases m.find? (fun p => decide (p.1 = k')) <;> rfl

theorem mapGet_del_self {κ α : Type} [DecidableEq κ] (m : List (κ × α)) (k : κ) :
    mapGet (mapDel m k) k = none := by
  unfold mapGet mapDel
  induction m with
  | nil => rfl
  | cons p m ih =>
    by_cases hp : p.1 = k
    · rw [List.filter_cons_of_neg (by simp [hp])]
      exact ih
    · rw [List.filter_cons_of_pos (by simpa using hp)]
      rw [List.find?_cons_of_neg _ (by simpa using hp)]
      exact ih

theorem mapGet_del_ne {κ α : Type} [DecidableEq κ] (m : List (κ × α)) (k k' : κ)
    (h : k' ≠ k) : mapGet (mapDel m k) k' = mapGet m k' := by
  unfold mapGet mapDel
  congr 1
  induction m with
  | nil => rfl
  | cons p m ih =>
    by_cases hp : p.1 = k
    · rw [List.filter_cons_of_neg (by simp [hp])]
      rw [List.find?_cons_of_neg _
        (by simp only [hp]; simpa using fun hh : k = k' => h hh.symm)]
      exact ih
    · rw [List.filter_cons_of_pos (by simpa using hp)]
      by_cases hq : p.1 = k'
      · rw [List.find?_cons_of_pos _ (by simpa using hq),
          List.find?_cons_of_pos _ (by simpa using hq)]
      · rw [List.find?_cons_of_neg _ (by simpa using hq),
          List.find?_cons_of_neg _ (by simpa using hq)]
        exact ih

theorem mapGet_append {κ α : Type} [DecidableEq κ] (m l : List (κ × α)) (k : κ) :
    mapGet (m ++ l) k = (mapGet m k).or (mapGet l k) := by
  unfold mapGet
  rw [List.find?_append]
  cases m.find? (fun p => decide (p.1 = k)) <;> simp

theorem connectedB_of_userOf {st : ServerState} {sid : Nat} {u : UserT}
    (h : userOf st sid = some u) : connectedB st sid = true := by
  unfold userOf at h
  unfold connectedB
  cases hm : mapGet st.conns sid with
  | none => rw [hm] at h; simp at h
  | some ou => simp

theorem removeFirst_sublist (q : List Nat) (sid : Nat) :
    List.Sublist (removeFirst q sid) q := by
  unfold removeFirst
  by_cases h : q.findIdx (fun x => x == sid) < q.length
  · rw [if_pos h]; exact List.eraseIdx_sublist q _
  · rw [if_neg h]

theorem mem_of_mem_removeFirst {q : List Nat} {sid x : Nat}
    (h : x ∈ removeFirst q sid) : x ∈ q :=
  (removeFirst_sublist q sid).mem h

theorem nodup_removeFirst {q : List Nat} (sid : Nat) (h : q.Nodup) :
    (removeFirst q sid).Nodup :=
  (removeFirst_sublist q sid).nodup h

theorem not_mem_removeFirst {q : List Nat} {sid : Nat} (hnd : q.Nodup) :
    sid ∉ removeFirst q sid := by
  intro hmem
  unfold removeFirst at hmem
  by_cases h : q.findIdx (fun x => x == sid) < q.length
  · rw [if_pos h] at hmem
    have hp := List.findIdx_getElem (p := fun x => x == sid) (w := h)
    have hidx : q.get ⟨q.findIdx (fun x => x == sid), h⟩ = sid := by simpa using hp
    rcases List.mem_eraseIdx_iff_getElem?.mp hmem with ⟨j, hji, hj⟩
    have hsame : q[q.findIdx (fun x => x == sid)]? = q[j]? := by
      rw [hj, List.getElem?_eq_getElem h]
      exact congrArg some hidx
    exact hji (List.getElem?_inj h hnd hsame).symm
  · rw [if_neg h] at hmem
    exact h (List.findIdx_lt_length.mpr ⟨sid, hmem, by simp⟩)

theorem removeFirst_of_not_mem {q : List Nat} {sid : Nat} (h : sid ∉ q) :
    removeFirst q sid = q := by
  unfold removeFirst
  have hfi : ¬ q.findIdx (fun x => x == sid) < q.length := by
    intro hlt
    rcases List.findIdx_lt_length.mp hlt with ⟨x, hx, hxb⟩
    have hxs : x = sid := by simpa using hxb
    exact h (hxs ▸ hx)
  rw [if_neg hfi]

theorem mapGet_del_of_none {κ α : Type} [DecidableEq κ] {m : List (κ × α)} {k k' : κ}
    (h : mapGet m k' = none) : mapGet (mapDel m k) k' = none := by
  by_cases hh : k' = k
  · subst hh; exact mapGet_del_self m k'
  · rw [mapGet_del_ne m k k' hh]; exact h

theorem chatSym_of_SymP {chats : List (Nat × ChatInfo)} (h : SymP chats) :
    chatSym chats = true := by
  unfold chatSym
  rw [List.all_eq_true]
  intro p hp
  cases hg : mapGet chats p.1 with
  | none => simp
  | some ci =>
    have hb := h p.1 ci hg
    simp only [hb]
    simp

theorem sendMessageStep_state (st : ServerState) (sid : Nat) (c : Content)
    (rateOk : Bool) (now : Nat) : (sendMessageStep st sid c rateOk now).1 = st := by
  unfold sendMessageStep
  cases rateOk with
  | false => rfl
  | true =>
    rw [if_pos rfl]
    cases h1 : mapGet st.activeChats sid with
    | none => rfl
    | some ci =>
      cases h2 : userOf st sid with
      | none => rfl
      | some u =>
        cases c with
        | nonStr => rfl
        | str s =>
          by_cases hl : (sanitizeInput s MAX_MESSAGE_LENGTH).length = 0
          · simp [hl]
          · simp [hl]

theorem searchStep_unauth {st : ServerState} {sid : Nat} (r : Bool)
    (h : userOf st sid = none) :
    searchStep st sid r = (st, ⟨[(sid, Notif.unauthorized)], []⟩) := by
  unfold searchStep; rw [h]

theorem searchStep_rateLimited {st : ServerState} {sid : Nat} {u : UserT}
    (h : userOf st sid = some u) :
    searchStep st sid false = (st, ⟨[], []⟩) := by
  unfold searchStep; rw [h]; rfl

theorem searchStep_proceed {st : ServerState} {sid : Nat} {u : UserT}
    (h : userOf st sid = some u) :
    searchStep st sid true =
      (if st.waitingUsers.contains sid then
        (st, ⟨[(sid, Notif.searching)], []⟩)
      else
        match st.waitingUsers[st.waitingUsers.findIdx (eligibleFor st u.email)]? with
        | some pid =>
          ({ st with
              waitingUsers :=
                st.waitingUsers.eraseIdx (st.waitingUsers.findIdx (eligibleFor st u.email)),
              rooms :=
                joinRoom (joinRoom st.rooms (roomIdFor sid pid) sid) (roomIdFor sid pid) pid,
              activeChats :=
                mapSet (mapSet st.activeChats sid ⟨pid, roomIdFor sid pid⟩) pid
                  ⟨sid, roomIdFor sid pid⟩ },
           ⟨[(sid, Notif.matched (roomIdFor sid pid)),
             (pid, Notif.matched (roomIdFor sid pid))], []⟩)
        | none =>
          ({ st with waitingUsers := st.waitingUsers ++ [sid] },
           ⟨[(sid, Notif.searching)], []⟩)) := by
  unfold searchStep; rw [h]; rfl

theorem searchStep_dup {st : ServerState} {sid : Nat} {u : UserT}
    (h : userOf st sid = some u) (hc : st.waitingUsers.contains sid = true) :
    searchStep st sid true = (st, ⟨[(sid, Notif.searching)], []⟩) := by
  rw [searchStep_proceed h, if_pos hc]

theorem searchStep_found {st : ServerState} {sid : Nat} {u : UserT} {pid : Nat}
    (h : userOf st sid = some u) (hc : st.waitingUsers.contains sid = false)
    (hq : st.waitingUsers[st.waitingUsers.findIdx (eligibleFor st u.email)]? = some pid) :
    searchStep st sid true =
      ({ st with
          waitingUsers :=
            st.waitingUsers.eraseIdx (st.waitingUsers.findIdx (eligibleFor st u.email)),
          rooms :=
            joinRoom (joinRoom st.rooms (roomIdFor sid pid) sid) (roomIdFor sid pid) pid,
          activeChats :=
            mapSet (mapSet st.activeChats sid ⟨pid, roomIdFor sid pid⟩) pid
              ⟨sid, roomIdFor sid pid⟩ },
       ⟨[(sid, Notif.matched (roomIdFor sid pid)),
         (pid, Notif.matched (roomIdFor sid pid))], []⟩) := by
  rw [searchStep_proceed h, if_neg (by simp only [hc]; simp), hq]

theorem searchStep_enqueue {st : ServerState} {sid : Nat} {u : UserT}
    (h : userOf st sid = some u) (hc : st.waitingUsers.contains sid = false)
    (hq : st.waitingUsers[st.waitingUsers.findIdx (eligibleFor st u.email)]? = none) :
    searchStep st sid true =
      ({ st with waitingUsers := st.waitingUsers ++ [sid] },
       ⟨[(sid, Notif.searching)], []⟩) := by
  rw [searchStep_proceed h, if_neg (by simp only [hc]; simp), hq]

theorem sendMessageStep_rateLimited (st : ServerState) (sid : Nat) (c : Content)
    (now : Nat) : sendMessageStep st sid c false now = (st, ⟨[], []⟩) := rfl

theorem sendMessageStep_noChat {st : ServerState} {sid : Nat} (c : Content) (now : Nat)
    (h : mapGet st.activeChats sid = none) :
    sendMessageStep st sid c true now = (st, ⟨[], []⟩) := by
  unfold sendMessageStep; rw [h]; rfl

theorem sendMessageStep_noUser {st : ServerState} {sid : Nat} {ci : ChatInfo}
    (c : Content) (now : Nat) (h1 : mapGet st.activeChats sid = some ci)
    (h2 : userOf st sid = none) :
    sendMessageStep st sid c true now = (st, ⟨[], []⟩) := by
  unfold sendMessageStep; rw [h1, h2]; rfl

theorem sendMessageStep_nonStr {st : ServerState} {sid : Nat} {ci : ChatInfo} {u : UserT}
    (now : Nat) (h1 : mapGet st.activeChats sid = some ci) (h2 : userOf st sid = some u) :
    sendMessageStep st sid Content.nonStr true now = (st, ⟨[], []⟩) := by
  unfold sendMessageStep; rw [h1, h2]; rfl

theorem sendMessageStep_str {st : ServerState} {sid : Nat} {ci : ChatInfo} {u : UserT}
    (s : String) (now : Nat) (h1 : mapGet st.activeChats sid = some ci)
    (h2 : userOf st sid = some u) :
    sendMessageStep st sid (Content.str s) true now =
      (if (sanitizeInput s MAX_MESSAGE_LENGTH).length = 0 then (st, ⟨[], []⟩)
       else
        (st, ⟨((roomMembers st.rooms ci.roomId).filter (fun x => x ≠ sid)).map
                (fun x => (x, Notif.receiveMessage u.uid
                  (sanitizeInput s MAX_MESSAGE_LENGTH) now)),
              [⟨ci.roomId, u.uid, sanitizeInput s MAX_MESSAGE_LENGTH⟩]⟩)) := by
  unfold sendMessageStep
  rw [h1, h2]
  rw [if_pos rfl]

theorem endChatStep_noChat {st : ServerState} {sid : Nat}
    (h : mapGet st.activeChats sid = none) : endChatStep st sid = (st, ⟨[], []⟩) := by
  unfold endChatStep; rw [h]

theorem endChatStep_some {st : ServerState} {sid : Nat} {ci : ChatInfo}
    (h : mapGet st.activeChats sid = some ci) :
    endChatStep st sid =
      ({ st with
          rooms :=
            (if connectedB st ci.partnerId then
              leaveRoom (leaveRoom st.rooms ci.roomId sid) ci.roomId ci.partnerId
            else leaveRoom st.rooms ci.roomId sid),
          activeChats := mapDel (mapDel st.activeChats sid) ci.partnerId },
       ⟨((roomMembers st.rooms ci.roomId).filter (fun x => x ≠ sid)).map
          (fun x => (x, Notif.partnerDisconnected)), []⟩) := by
  unfold endChatStep; rw [h]

theorem disconnectStep_noChat {st : ServerState} {sid : Nat}
    (h : mapGet st.activeChats sid = none) :
    disconnectStep st sid =
      ({ conns := mapDel st.conns sid, waitingUsers := removeFirst st.waitingUsers sid,
         activeChats := st.activeChats, rooms := leaveAll st.rooms sid }, ⟨[], []⟩) := by
  unfold disconnectStep; rw [h]

theorem disconnectStep_some {st : ServerState} {sid : Nat} {ci : ChatInfo}
    (h : mapGet st.activeChats sid = some ci) :
    disconnectStep st sid =
      ({ conns := mapDel st.conns sid, waitingUsers := removeFirst st.waitingUsers sid,
         activeChats := mapDel (mapDel st.activeChats sid) ci.partnerId,
         rooms := leaveAll st.rooms sid },
       ⟨((roomMembers (leaveAll st.rooms sid) ci.roomId).filter (fun x => x ≠ sid)).map
          (fun x => (x, Notif.partnerDisconnected)), []⟩) := by
  unfold disconnectStep; rw [h]

theorem step_search (st : ServerState) (sid : Nat) (r : Bool)
    (hcb : connectedB st sid = true) :
    step st (Event.search sid r) = searchStep st sid r := by
  show (if connectedB st sid then searchStep st sid r else (st, ⟨[], []⟩))
      = searchStep st sid r
  rw [if_pos hcb]

theorem step_stopSearch (st : ServerState) (sid : Nat)
    (hcb : connectedB st sid = true) :
    step st (Event.stopSearch sid) = stopSearchStep st sid := by
  show (if connectedB st sid then stopSearchStep st sid else (st, ⟨[], []⟩))
      = stopSearchStep st sid
  rw [if_pos hcb]

theorem step_sendMessage (st : ServerState) (sid : Nat) (c : Content) (r : Bool)
    (now : Nat) (hcb : connectedB st sid = true) :
    step st (Event.sendMessage sid c r now) = sendMessageStep st sid c r now := by
  show (if connectedB st sid then sendMessageStep st sid c r now else (st, ⟨[], []⟩))
      = sendMessageStep st sid c r now
  rw [if_pos hcb]

theorem step_endChat (st : ServerState) (sid : Nat)
    (hcb : connectedB st sid = true) :
    step st (Event.endChat sid) = endChatStep st sid := by
  show (if connectedB st sid then endChatStep st sid else (st, ⟨[], []⟩))
      = endChatStep st sid
  rw [if_pos hcb]

theorem step_disconnect (st : ServerState) (sid : Nat)
    (hcb : connectedB st sid = true) :
    step st (Event.disconnect sid) = disconnectStep st sid := by
  show (if connectedB st sid then disconnectStep st sid else (st, ⟨[], []⟩))
      = disconnectStep st sid
  rw [if_pos hcb]

theorem step_login (st : ServerState) (sid : Nat) (res : Option UserT)
    (hcb : connectedB st sid = true) :
    step st (Event.login sid res) = loginStep st sid res := by
  show (if connectedB st sid then loginStep st sid res else (st, ⟨[], []⟩))
      = loginStep st sid res
  rw [if_pos hcb]

theorem connectStep_queue (st : ServerState) (sid : Nat) :
    ((connectStep st sid).1).waitingUsers = st.waitingUsers := by
  unfold connectStep
  split <;> rfl

theorem connectStep_chats (st : ServerState) (sid : Nat) :
    ((connectStep st sid).1).activeChats = st.activeChats := by
  unfold connectStep
  split <;> rfl

theorem stopSearchStep_queue (st : ServerState) (sid : Nat) :
    ((stopSearchStep st sid).1).waitingUsers = removeFirst st.waitingUsers sid := rfl

theorem disconnectStep_queue (st : ServerState) (sid : Nat) :
    ((disconnectStep st sid).1).waitingUsers = removeFirst st.waitingUsers sid := by
  unfold disconnectStep
  cases h : mapGet st.activeChats sid <;> rfl

theorem endChatStep_queue (st : ServerState) (sid : Nat) :
    ((endChatStep st sid).1).waitingUsers = st.waitingUsers := by
  unfold endChatStep
  cases h : mapGet st.activeChats sid <;> rfl

theorem endChatStep_conns (st : ServerState) (sid : Nat) :
    ((endChatStep st sid).1).conns = st.conns := by
  unfold endChatStep
  cases h : mapGet st.activeChats sid <;> rfl

theorem disconnectStep_conns (st : ServerState) (sid : Nat) :
    ((disconnectStep st sid).1).conns = mapDel st.conns sid := by
  unfold disconnectStep
  cases h : mapGet st.activeChats sid <;> rfl

theorem searchStep_queue_nodup {st : ServerState} (sid : Nat) (r : Bool)
    (h : st.waitingUsers.Nodup) : ((searchStep st sid r).1).waitingUsers.Nodup := by
  cases hu : userOf st sid with
  | none => rw [searchStep_unauth r hu]; exact h
  | some u =>
    cases r with
    | false => rw [searchStep_rateLimited hu]; exact h
    | true =>
      cases hc : st.waitingUsers.contains sid with
      | true => rw [searchStep_dup hu hc]; exact h
      | false =>
        cases hq : st.waitingUsers[st.waitingUsers.findIdx (eligibleFor st u.email)]? with
        | some pid =>
          rw [searchStep_found hu hc hq]
          exact (List.eraseIdx_sublist _ _).nodup h
        | none =>
          rw [searchStep_enqueue hu hc hq]
          have hs : sid ∉ st.waitingUsers := by
            intro hmem
            have he : st.waitingUsers.contains sid = true :=
              List.elem_eq_true_of_mem hmem
            rw [he] at hc
            simp at hc
          rw [List.nodup_append]
          exact ⟨h, List.nodup_singleton sid, by simpa using hs⟩

theorem nodup_step {st : ServerState} (e : Event) (h : st.waitingUsers.Nodup) :
    ((step st e).1).waitingUsers.Nodup := by
  cases e with
  | connect sid =>
    have hq : ((step st (Event.connect sid)).1).waitingUsers = st.waitingUsers :=
      connectStep_queue st sid
    rw [hq]; exact h
  | login sid res =>
    show ((if connectedB st sid then loginStep st sid res else (st, ⟨[], []⟩)).1).waitingUsers.Nodup
    by_cases hcb : connectedB st sid = true
    · rw [if_pos hcb]
      cases res with
      | none =>
        show ((disconnectStep st sid).1).waitingUsers.Nodup
        rw [disconnectStep_queue]
        exact nodup_removeFirst sid h
      | some u => exact h
    · rw [if_neg hcb]; exact h
  | search sid r =>
    show ((if connectedB st sid then searchStep st sid r else (st, ⟨[], []⟩)).1).waitingUsers.Nodup
    by_cases hcb : connectedB st sid = true
    · rw [if_pos hcb]; exact searchStep_queue_nodup sid r h
    · rw [if_neg hcb]; exact h
  | stopSearch sid =>
    show ((if connectedB st sid then stopSearchStep st sid else (st, ⟨[], []⟩)).1).waitingUsers.Nodup
    by_cases hcb : connectedB st sid = true
    · rw [if_pos hcb, stopSearchStep_queue]; exact nodup_removeFirst sid h
    · rw [if_neg hcb]; exact h
  | sendMessage sid c r now =>
    show ((if connectedB st sid then sendMessageStep st sid c r now else (st, ⟨[], []⟩)).1).waitingUsers.Nodup
    by_cases hcb : connectedB st sid = true
    · rw [if_pos hcb, sendMessageStep_state]; exact h
    · rw [if_neg hcb]; exact h
  | endChat sid =>
    show ((if connectedB st sid then endChatStep st sid else (st, ⟨[], []⟩)).1).waitingUsers.Nodup
    by_cases hcb : connectedB st sid = true
    · rw [if_pos hcb, endChatStep_queue]; exact h
    · rw [if_neg hcb]; exact h
  | disconnect sid =>
    show ((if connectedB st sid then disconnectStep st sid else (st, ⟨[], []⟩)).1).waitingUsers.Nodup
    by_cases hcb : connectedB st sid = true
    · rw [if_pos hcb, disconnectStep_queue]; exact nodup_removeFirst sid h
    · rw [if_neg hcb]; exact h

theorem nodup_runFrom (es : List Event) :
    ∀ st : ServerState, st.waitingUsers.Nodup → (runFrom st es).waitingUsers.Nodup := by
  induction es with
  | nil => intro st h; exact h
  | cons e es ih =>
    intro st h
    exact ih (step st e).1 (nodup_step e h)

theorem nodup_run (es : List Event) : (run es).waitingUsers.Nodup :=
  nodup_runFrom es initState List.nodup_nil

theorem not_mem_of_contains_false {q : List Nat} {sid : Nat}
    (hc : q.contains sid = false) : sid ∉ q := by
  intro hmem
  have he : q.contains sid = true := List.elem_eq_true_of_mem hmem
  rw [he] at hc
  simp at hc

theorem findIdx_getElem?_prop {α : Type} {p : α → Bool} {q : List α} {x : α}
    (hq : q[q.findIdx p]? = some x) : p x = true := by
  rcases List.getElem?_eq_some_iff.mp hq with ⟨h, hx⟩
  have hg := List.findIdx_getElem (p := p) (w := h)
  rw [hx] at hg
  exact hg

theorem not_mem_eraseIdx_self {α : Type} [DecidableEq α] {q : List α} {i : Nat} {x : α}
    (hnd : q.Nodup) (hq : q[i]? = some x) : x ∉ q.eraseIdx i := by
  intro hmem
  rcases List.mem_eraseIdx_iff_getElem?.mp hmem with ⟨j, hji, hj⟩
  have hlt : i < q.length := (List.getElem?_eq_some_iff.mp hq).1
  exact hji ((List.getElem?_inj hlt hnd (hq.trans hj.symm)).symm)

theorem eligibleFor_spec {st : ServerState} {email : String} {w : Nat}
    (h : eligibleFor st email w = true) :
    ∃ wu, userOf st w = some wu ∧ wu.email ≠ email := by
  unfold eligibleFor at h
  cases hw : userOf st w with
  | none => rw [hw] at h; simp at h
  | some wu => rw [hw] at h; exact ⟨wu, rfl, by simpa using h⟩

theorem SymP_set_pair {chats : List (Nat × ChatInfo)} {sid pid : Nat} {r : String}
    (hs : SymP chats) (hsid : mapGet chats sid = none)
    (hpid : mapGet chats pid = none) (hne : pid ≠ sid) :
    SymP (mapSet (mapSet chats sid ⟨pid, r⟩) pid ⟨sid, r⟩) := by
  intro a ca hga
  by_cases hap : a = pid
  · subst hap
    rw [mapGet_set_self] at hga
    injection hga with h1
    subst h1
    rw [mapGet_set_ne _ _ _ _ (Ne.symm hne), mapGet_set_self]
  · by_cases has : a = sid
    · subst has
      rw [mapGet_set_ne _ _ _ _ (Ne.symm hne), mapGet_set_self] at hga
      injection hga with h1
      subst h1
      rw [mapGet_set_self]
    · rw [mapGet_set_ne _ _ _ _ hap, mapGet_set_ne _ _ _ _ has] at hga
      have hpa := hs a ca hga
      have h1 : ca.partnerId ≠ sid := fun hh => by
        rw [hh, hsid] at hpa; exact Option.noConfusion hpa
      have h2 : ca.partnerId ≠ pid := fun hh => by
        rw [hh, hpid] at hpa; exact Option.noConfusion hpa
      rw [mapGet_set_ne _ _ _ _ h2, mapGet_set_ne _ _ _ _ h1]
      exact hpa

theorem SymP_del_pair {chats : List (Nat × ChatInfo)} {sid : Nat} {ci : ChatInfo}
    (hs : SymP chats) (hci : mapGet chats sid = some ci) :
    SymP (mapDel (mapDel chats sid) ci.partnerId) := by
  intro a ca hga
  by_cases hap : a = ci.partnerId
  · subst hap
    rw [mapGet_del_self] at hga
    exact Option.noConfusion hga
  · rw [mapGet_del_ne _ _ _ hap] at hga
    by_cases has : a = sid
    · subst has
      rw [mapGet_del_self] at hga
      exact Option.noConfusion hga
    · rw [mapGet_del_ne _ _ _ has] at hga
      have hpa := hs a ca hga
      have hpi := hs sid ci hci
      have h1 : ca.partnerId ≠ sid := by
        intro hh
        rw [hh, hci] at hpa
        injection hpa with h2
        exact hap (congrArg ChatInfo.partnerId h2).symm
      have h2 : ca.partnerId ≠ ci.partnerId := by
        intro hh
        rw [hh, hpi] at hpa
        injection hpa with h3
        exact has (congrArg ChatInfo.partnerId h3).symm
      rw [mapGet_del_ne _ _ _ h2, mapGet_del_ne _ _ _ h1]
      exact hpa

theorem step_login_nc (st : ServerState) (sid : Nat) (res : Option UserT)
    (hcb : ¬ connectedB st sid = true) :
    step st (Event.login sid res) = (st, ⟨[], []⟩) := by
  show (if connectedB st sid then loginStep st sid res else (st, ⟨[], []⟩)) = (st, ⟨[], []⟩)
  rw [if_neg hcb]

theorem step_search_nc (st : ServerState) (sid : Nat) (r : Bool)
    (hcb : ¬ connectedB st sid = true) :
    step st (Event.search sid r) = (st, ⟨[], []⟩) := by
  show (if connectedB st sid then searchStep st sid r else (st, ⟨[], []⟩)) = (st, ⟨[], []⟩)
  rw [if_neg hcb]

theorem step_stopSearch_nc (st : ServerState) (sid : Nat)
    (hcb : ¬ connectedB st sid = true) :
    step st (Event.stopSearch sid) = (st, ⟨[], []⟩) := by
  show (if connectedB st sid then stopSearchStep st sid else (st, ⟨[], []⟩)) = (st, ⟨[], []⟩)
  rw [if_neg hcb]

theorem step_sendMessage_nc (st : ServerState) (sid : Nat) (c : Content) (r : Bool)
    (now : Nat) (hcb : ¬ connectedB st sid = true) :
    step st (Event.sendMessage sid c r now) = (st, ⟨[], []⟩) := by
  show (if connectedB st sid then sendMessageStep st sid c r now else (st, ⟨[], []⟩))
      = (st, ⟨[], []⟩)
  rw [if_neg hcb]

theorem step_endChat_nc (st : ServerState) (sid : Nat)
    (hcb : ¬ connectedB st sid = true) :
    step st (Event.endChat sid) = (st, ⟨[], []⟩) := by
  show (if connectedB st sid then endChatStep st sid else (st, ⟨[], []⟩)) = (st, ⟨[], []⟩)
  rw [if_neg hcb]

theorem step_disconnect_nc (st : ServerState) (sid : Nat)
    (hcb : ¬ connectedB st sid = true) :
    step st (Event.disconnect sid) = (st, ⟨[], []⟩) := by
  show (if connectedB st sid then disconnectStep st sid else (st, ⟨[], []⟩)) = (st, ⟨[], []⟩)
  rw [if_neg hcb]

theorem invG_connect (st : ServerState) (sid : Nat) (h : InvG st) :
    InvG (connectStep st sid).1 := by
  obtain ⟨hs, hnd, hqc, hqa⟩ := h
  unfold connectStep
  by_cases hcb : connectedB st sid = true
  · rw [if_pos hcb]; exact ⟨hs, hnd, hqc, hqa⟩
  · rw [if_neg hcb]
    refine ⟨hs, hnd, hqc, ?_⟩
    intro w hw
    have hold := hqa w hw
    show ((mapGet (st.conns ++ [(sid, none)]) w).getD none).isSome = true
    rw [mapGet_append]
    unfold userOf at hold
    cases hm : mapGet st.conns w with
    | none => rw [hm] at hold; simp at hold
    | some ou => rw [hm] at hold; simpa using hold

theorem invG_stopSearch (st : ServerState) (sid : Nat) (h : InvG st) :
    InvG (stopSearchStep st sid).1 := by
  obtain ⟨hs, hnd, hqc, hqa⟩ := h
  exact ⟨hs, nodup_removeFirst sid hnd,
    fun w hw => hqc w (mem_of_mem_removeFirst hw),
    fun w hw => hqa w (mem_of_mem_removeFirst hw)⟩

theorem invG_sendMessage (st : ServerState) (sid : Nat) (c : Content) (r : Bool)
    (now : Nat) (h : InvG st) : InvG (sendMessageStep st sid c r now).1 := by
  rw [sendMessageStep_state]; exact h

theorem invG_endChat (st : ServerState) (sid : Nat) (h : InvG st) :
    InvG (endChatStep st sid).1 := by
  obtain ⟨hs, hnd, hqc, hqa⟩ := h
  cases hci : mapGet st.activeChats sid with
  | none => rw [endChatStep_noChat hci]; exact ⟨hs, hnd, hqc, hqa⟩
  | some ci =>
    rw [endChatStep_some hci]
    refine ⟨SymP_del_pair hs hci, hnd, ?_, hqa⟩
    intro w hw
    exact mapGet_del_of_none (mapGet_del_of_none (hqc w hw))

theorem invG_disconnect (st : ServerState) (sid : Nat) (h : InvG st) :
    InvG (disconnectStep st sid).1 := by
  obtain ⟨hs, hnd, hqc, hqa⟩ := h
  have hqa' : ∀ w ∈ removeFirst st.waitingUsers sid,
      ((mapGet (mapDel st.conns sid) w).getD none).isSome = true := by
    intro w hw
    have hwq := mem_of_mem_removeFirst hw
    have hws : w ≠ sid := by
      intro hh; subst hh; exact not_mem_removeFirst hnd hw
    rw [mapGet_del_ne _ _ _ hws]
    exact hqa w hwq
  cases hci : mapGet st.activeChats sid with
  | none =>
    rw [disconnectStep_noChat hci]
    exact ⟨hs, nodup_removeFirst sid hnd,
      fun w hw => hqc w (mem_of_mem_removeFirst hw), hqa'⟩
  | some ci =>
    rw [disconnectStep_some hci]
    exact ⟨SymP_del_pair hs hci, nodup_removeFirst sid hnd,
      fun w hw => mapGet_del_of_none (mapGet_del_of_none (hqc w (mem_of_mem_removeFirst hw))),
      hqa'⟩

theorem invG_login (st : ServerState) (sid : Nat) (res : Option UserT) (h : InvG st) :
    InvG (loginStep st sid res).1 := by
  cases res with
  | none => exact invG_disconnect st sid h
  | some u =>
    obtain ⟨hs, hnd, hqc, hqa⟩ := h
    refine ⟨hs, hnd, hqc, ?_⟩
    intro w hw
    show ((mapGet (mapSet st.conns sid (some u)) w).getD none).isSome = true
    by_cases hws : w = sid
    · subst hws; rw [mapGet_set_self]; rfl
    · rw [mapGet_set_ne _ _ _ _ hws]
      exact hqa w hw

theorem invG_search (st : ServerState) (sid : Nat) (r : Bool) (h : InvG st)
    (hgn : mapGet st.activeChats sid = none) : InvG (searchStep st sid r).1 := by
  obtain ⟨hs, hnd, hqc, hqa⟩ := h
  cases hu : userOf st sid with
  | none => rw [searchStep_unauth r hu]; exact ⟨hs, hnd, hqc, hqa⟩
  | some u =>
    cases r with
    | false => rw [searchStep_rateLimited hu]; exact ⟨hs, hnd, hqc, hqa⟩
    | true =>
      cases hc : st.waitingUsers.contains sid with
      | true => rw [searchStep_dup hu hc]; exact ⟨hs, hnd, hqc, hqa⟩
      | false =>
        have hsidq : sid ∉ st.waitingUsers := not_mem_of_contains_false hc
        cases hq : st.waitingUsers[st.waitingUsers.findIdx (eligibleFor st u.email)]? with
        | none =>
          rw [searchStep_enqueue hu hc hq]
          refine ⟨hs, ?_, ?_, ?_⟩
          · rw [List.nodup_append]
            exact ⟨hnd, List.nodup_singleton _, by simpa using hsidq⟩
          · intro w hw
            rcases List.mem_append.mp hw with hw1 | hw2
            · exact hqc w hw1
            · have hwe : w = sid := by simpa using hw2
              subst hwe; exact hgn
          · intro w hw
            rcases List.mem_append.mp hw with hw1 | hw2
            · exact hqa w hw1
            · have hwe : w = sid := by simpa using hw2
              subst hwe
              show (userOf st w).isSome = true
              rw [hu]; rfl
        | some pid =>
          have hpidq : pid ∈ st.waitingUsers := List.getElem?_mem hq
          have hpidsid : pid ≠ sid := fun hh => hsidq (hh ▸ hpidq)
          have hpidchat : mapGet st.activeChats pid = none := hqc pid hpidq
          rw [searchStep_found hu hc hq]
          refine ⟨SymP_set_pair hs hgn hpidchat hpidsid,
            (List.eraseIdx_sublist _ _).nodup hnd, ?_, ?_⟩
          · intro w hw
            have hwq : w ∈ st.waitingUsers := (List.eraseIdx_sublist _ _).mem hw
            have hwsid : w ≠ sid := fun hh => hsidq (hh ▸ hwq)
            have hwpid : w ≠ pid := fun hh => (not_mem_eraseIdx_self hnd hq) (hh ▸ hw)
            rw [mapGet_set_ne _ _ _ _ hwpid, mapGet_set_ne _ _ _ _ hwsid]
            exact hqc w hwq
          · intro w hw
            exact hqa w ((List.eraseIdx_sublist _ _).mem hw)

theorem invG_init : InvG initState := by
  refine ⟨?_, List.nodup_nil, ?_, ?_⟩
  · intro a ci hci; exact Option.noConfusion hci
  · intro w hw; cases hw
  · intro w hw; cases hw

theorem invG_step (st : ServerState) (e : Event) (h : InvG st)
    (hg : GoodEvB st e = true) : InvG (step st e).1 := by
  cases e with
  | connect sid => exact invG_connect st sid h
  | login sid res =>
    by_cases hcb : connectedB st sid = true
    · rw [step_login st sid res hcb]; exact invG_login st sid res h
    · rw [step_login_nc st sid res hcb]; exact h
  | search sid r =>
    by_cases hcb : connectedB st sid = true
    · rw [step_search st sid r hcb]
      have hgn : mapGet st.activeChats sid = none := by
        have : (mapGet st.activeChats sid).isNone = true := hg
        cases hx : mapGet st.activeChats sid with
        | none => rfl
        | some ci => rw [hx] at this; simp at this
      exact invG_search st sid r h hgn
    · rw [step_search_nc st sid r hcb]; exact h
  | stopSearch sid =>
    by_cases hcb : connectedB st sid = true
    · rw [step_stopSearch st sid hcb]; exact invG_stopSearch st sid h
    · rw [step_stopSearch_nc st sid hcb]; exact h
  | sendMessage sid c r now =>
    by_cases hcb : connectedB st sid = true
    · rw [step_sendMessage st sid c r now hcb]; exact invG_sendMessage st sid c r now h
    · rw [step_sendMessage_nc st sid c r now hcb]; exact h
  | endChat sid =>
    by_cases hcb : connectedB st sid = true
    · rw [step_endChat st sid hcb]; exact invG_endChat st sid h
    · rw [step_endChat_nc st sid hcb]; exact h
  | disconnect sid =>
    by_cases hcb : connectedB st sid = true
    · rw [step_disconnect st sid hcb]; exact invG_disconnect st sid h
    · rw [step_disconnect_nc st sid hcb]; exact h

theorem reachG_invG {st : ServerState} (h : ReachableG st) : InvG st := by
  induction h with
  | init => exact invG_init
  | next hr hg ih => exact invG_step _ _ ih hg

theorem string_length_zero {s : String} (h : s.length = 0) : s = "" := by
  cases s with
  | mk data =>
    cases data with
    | nil => rfl
    | cons c cs => simp at h

theorem conns_none_of_not_connected {st : ServerState} {a : Nat}
    (h : connectedB st a = false) : mapGet st.conns a = none := by
  unfold connectedB at h
  cases hm : mapGet st.conns a with
  | none => rfl
  | some ou => rw [hm] at h; simp at h

theorem not_connected_of_conns_none {st : ServerState} {a : Nat}
    (h : mapGet st.conns a = none) : connectedB st a = false := by
  unfold connectedB
  rw [h]
  rfl

/-- After a socket `a` is gone (disconnected, out of the queue, no session
entry), a `disconnect` of any socket keeps it gone. -/
theorem gone_disconnectStep (st : ServerState) (sid a : Nat)
    (h1 : connectedB st a = false) (h2 : a ∉ st.waitingUsers)
    (h3 : mapGet st.activeChats a = none) :
    connectedB (disconnectStep st sid).1 a = false ∧
      a ∉ (disconnectStep st sid).1.waitingUsers ∧
      mapGet (disconnectStep st sid).1.activeChats a = none := by
  have hcn : mapGet (mapDel st.conns sid) a = none :=
    mapGet_del_of_none (conns_none_of_not_connected h1)
  cases hci : mapGet st.activeChats sid with
  | none =>
    rw [disconnectStep_noChat hci]
    exact ⟨not_connected_of_conns_none hcn,
      fun hm => h2 (mem_of_mem_removeFirst hm), h3⟩
  | some ci =>
    rw [disconnectStep_some hci]
    exact ⟨not_connected_of_conns_none hcn,
      fun hm => h2 (mem_of_mem_removeFirst hm),
      mapGet_del_of_none (mapGet_del_of_none h3)⟩

/-- After a socket `a` is gone (disconnected, out of the queue, no session
entry), no later event other than a reconnect of the same id can bring any
of that back: this is the inductive step. -/
theorem gone_step (st : ServerState) (e : Event) (a : Nat)
    (h1 : connectedB st a = false) (h2 : a ∉ st.waitingUsers)
    (h3 : mapGet st.activeChats a = none) (hne : e ≠ Event.connect a) :
    connectedB (step st e).1 a = false ∧ a ∉ (step st e).1.waitingUsers ∧
      mapGet (step st e).1.activeChats a = none := by
  cases e with
  | connect sid =>
    have hsa : ¬ (sid = a) := fun hh => hne (by rw [hh])
    show connectedB (connectStep st sid).1 a = false ∧
      a ∉ (connectStep st sid).1.waitingUsers ∧
      mapGet (connectStep st sid).1.activeChats a = none
    unfold connectStep
    by_cases hcb : connectedB st sid = true
    · rw [if_pos hcb]; exact ⟨h1, h2, h3⟩
    · rw [if_neg hcb]
      refine ⟨?_, h2, h3⟩
      have hsng : mapGet [(sid, (none : Option UserT))] a = none := by
        unfold mapGet
        rw [List.find?_cons_of_neg _ (by simpa using hsa)]
        rfl
      have hnone : mapGet (st.conns ++ [(sid, (none : Option UserT))]) a = none := by
        rw [mapGet_append, conns_none_of_not_connected h1, hsng]
        rfl
      exact @not_connected_of_conns_none
        { st with conns := st.conns ++ [(sid, none)] } a hnone
  | login sid res =>
    by_cases hcb : connectedB st sid = true
    · rw [step_login st sid res hcb]
      have hsa : a ≠ sid := fun hh => by rw [hh] at h1; rw [h1] at hcb; cases hcb
      cases res with
      | none => exact gone_disconnectStep st sid a h1 h2 h3
      | some u =>
        refine ⟨?_, h2, h3⟩
        show ((mapGet (mapSet st.conns sid (some u)) a)).isSome = false
        rw [mapGet_set_ne _ _ _ _ hsa, conns_none_of_not_connected h1]
        rfl
    · rw [step_login_nc st sid res hcb]; exact ⟨h1, h2, h3⟩
  | search sid r =>
    by_cases hcb : connectedB st sid = true
    · rw [step_search st sid r hcb]
      have hsa : a ≠ sid := fun hh => by rw [hh] at h1; rw [h1] at hcb; cases hcb
      cases hu : userOf st sid with
      | none => rw [searchStep_unauth r hu]; exact ⟨h1, h2, h3⟩
      | some u =>
        cases r with
        | false => rw [searchStep_rateLimited hu]; exact ⟨h1, h2, h3⟩
        | true =>
          cases hc : st.waitingUsers.contains sid with
          | true => rw [searchStep_dup hu hc]; exact ⟨h1, h2, h3⟩
          | false =>
            cases hq : st.waitingUsers[st.waitingUsers.findIdx
                (eligibleFor st u.email)]? with
            | none =>
              rw [searchStep_enqueue hu hc hq]
              refine ⟨h1, ?_, h3⟩
              intro hm
              rcases List.mem_append.mp hm with hm1 | hm2
              · exact h2 hm1
              · exact hsa (by simpa using hm2)
            | some pid =>
              rw [searchStep_found hu hc hq]
              have hpidq : pid ∈ st.waitingUsers := List.getElem?_mem hq
              have hapid : a ≠ pid := fun hh => h2 (hh ▸ hpidq)
              refine ⟨h1, ?_, ?_⟩
              · intro hm
                exact h2 ((List.eraseIdx_sublist _ _).mem hm)
              · rw [mapGet_set_ne _ _ _ _ hapid, mapGet_set_ne _ _ _ _ hsa]
                exact h3
    · rw [step_search_nc st sid r hcb]; exact ⟨h1, h2, h3⟩
  | stopSearch sid =>
    by_cases hcb : connectedB st sid = true
    · rw [step_stopSearch st sid hcb]
      exact ⟨h1, fun hm => h2 (mem_of_mem_removeFirst hm), h3⟩
    · rw [step_stopSearch_nc st sid hcb]; exact ⟨h1, h2, h3⟩
  | sendMessage sid c r now =>
    by_cases hcb : connectedB st sid = true
    · rw [step_sendMessage st sid c r now hcb, sendMessageStep_state]
      exact ⟨h1, h2, h3⟩
    · rw [step_sendMessage_nc st sid c r now hcb]; exact ⟨h1, h2, h3⟩
  | endChat sid =>
    by_cases hcb : connectedB st sid = true
    · rw [step_endChat st sid hcb]
      cases hci : mapGet st.activeChats sid with
      | none => rw [endChatStep_noChat hci]; exact ⟨h1, h2, h3⟩
      | some ci =>
        rw [endChatStep_some hci]
        exact ⟨h1, h2, mapGet_del_of_none (mapGet_del_of_none h3)⟩
    · rw [step_endChat_nc st sid hcb]; exact ⟨h1, h2, h3⟩
  | disconnect sid =>
    by_cases hcb : connectedB st sid = true
    · rw [step_disconnect st sid hcb]
      exact gone_disconnectStep st sid a h1 h2 h3
    · rw [step_disconnect_nc st sid hcb]; exact ⟨h1, h2, h3⟩

theorem gone_runFrom (es : List Event) (a : Nat) :
    ∀ st : ServerState, connectedB st a = false → a ∉ st.waitingUsers →
      mapGet st.activeChats a = none → (∀ e ∈ es, e ≠ Event.connect a) →
      connectedB (runFrom st es) a = false ∧ a ∉ (runFrom st es).waitingUsers ∧
        mapGet (runFrom st es).activeChats a = none := by
  induction es with
  | nil => intro st hh1 hh2 hh3 _; exact ⟨hh1, hh2, hh3⟩
  | cons e es ih =>
    intro st hh1 hh2 hh3 hne
    have hstep := gone_step st e a hh1 hh2 hh3 (hne e (List.mem_cons_self e es))
    exact ih (step st e).1 hstep.1 hstep.2.1 hstep.2.2
      (fun e' he' => hne e' (List.mem_cons_of_mem e he'))

theorem eligibleFor_false {st : ServerState} {email : String} {w : Nat} {wu : UserT}
    (h : eligibleFor st email w = false) (hw : userOf st w = some wu) :
    wu.email = email := by
  unfold eligibleFor at h
  rw [hw] at h
  simpa using h

/-- C1 counterexample: the state reached by `breakTrace` (a legal event
trace: it only replays `connect`/`login`/`search` events through `run`) has
socket 0 mapped to partner 1 in `room-1-0` while socket 1's entry points at
socket 2 in `room-1-2` — the Session Table of a reachable state is not
symmetric, because the `search` handler does not ignore a request from an
already-matched connection. -/
theorem C1_symmetry_counterexample :
    mapGet (run breakTrace).activeChats 0 = some ⟨1, "room-1-0"⟩ ∧
    mapGet (run breakTrace).activeChats 1 = some ⟨2, "room-1-2"⟩ ∧
    chatSym (run breakTrace).activeChats = false :=
  ⟨rfl, rfl, rfl⟩

/-- C1 (amended): session-table entries are created in pairs on match and
removed in pairs on teardown, so every state reachable WITHOUT a `search`
issued by an already-matched connection has a symmetric Session Table: each
entry's partner has an entry pointing back with the same room identifier.
The code lacks the guard the spec postulates, so the invariant as stated
over all reachable states fails (see the counterexample). -/
theorem C1_symmetric_session_table (st : ServerState) (h : ReachableG st) :
    chatSym st.activeChats = true :=
  chatSym_of_SymP (reachG_invG h).1

theorem C1_symmetric_session_table_witness :
    chatSym (run pairTrace).activeChats = true := by
  refine C1_symmetric_session_table (run pairTrace) ?_
  exact ReachableG.next (ReachableG.next (ReachableG.next (ReachableG.next
    (ReachableG.next (ReachableG.next ReachableG.init (by decide)) (by decide))
    (by decide)) (by decide)) (by decide)) (by decide)

/-- C2: on a `search` from an authenticated connection `sid` (identity
`u`) that is not itself waiting, the matchmaker picks the queue entry at
the first index whose user's email differs from `u.email`: the chosen
partner's identity differs from the requester's (no self-match), every
earlier queue entry carries the requester's own email (oldest eligible
wins, so W1 inserted before W2 is always preferred), and if no entry is
eligible (all share the email, or the pool is empty) the requester is
enqueued at the tail and told `searching`. -/
theorem C2_earliest_distinct_partner (st : ServerState) (sid : Nat) (u : UserT)
    (hu : userOf st sid = some u)
    (hnq : st.waitingUsers.contains sid = false) :
    ((∀ w ∈ st.waitingUsers, eligibleFor st u.email w = false) →
      step st (Event.search sid true)
        = ({ st with waitingUsers := st.waitingUsers ++ [sid] },
           ⟨[(sid, Notif.searching)], []⟩)) ∧
    (∀ pid,
      st.waitingUsers[st.waitingUsers.findIdx (eligibleFor st u.email)]? = some pid →
      (∃ wu, userOf st pid = some wu ∧ wu.email ≠ u.email) ∧
      (∀ j (hj : j < st.waitingUsers.findIdx (eligibleFor st u.email))
          (hlen : j < st.waitingUsers.length) (wv : UserT),
        userOf st (st.waitingUsers.get ⟨j, hlen⟩) = some wv → wv.email = u.email) ∧
      step st (Event.search sid true)
        = ({ st with
              waitingUsers :=
                st.waitingUsers.eraseIdx (st.waitingUsers.findIdx (eligibleFor st u.email)),
              rooms :=
                joinRoom (joinRoom st.rooms (roomIdFor sid pid) sid) (roomIdFor sid pid) pid,
              activeChats :=
                mapSet (mapSet st.activeChats sid ⟨pid, roomIdFor sid pid⟩) pid
                  ⟨sid, roomIdFor sid pid⟩ },
           ⟨[(sid, Notif.matched (roomIdFor sid pid)),
             (pid, Notif.matched (roomIdFor sid pid))], []⟩)) := by
  constructor
  · intro hall
    have hfi : st.waitingUsers.findIdx (eligibleFor st u.email) = st.waitingUsers.length :=
      List.findIdx_eq_length_of_false hall
    have hq : st.waitingUsers[st.waitingUsers.findIdx (eligibleFor st u.email)]? = none := by
      rw [hfi]
      exact List.getElem?_eq_none (Nat.le_refl _)
    rw [step_search st sid true (connectedB_of_userOf hu), searchStep_enqueue hu hnq hq]
  · intro pid hq
    have hel : eligibleFor st u.email pid = true := findIdx_getElem?_prop hq
    refine ⟨eligibleFor_spec hel, ?_, ?_⟩
    · intro j hj hlen wv hwv
      have hef : eligibleFor st u.email (st.waitingUsers.get ⟨j, hlen⟩) = false :=
        List.not_of_lt_findIdx hj
      exact eligibleFor_false hef hwv
    · rw [step_search st sid true (connectedB_of_userOf hu), searchStep_found hu hnq hq]

theorem C2_earliest_distinct_partner_witness :
    (∃ wu, userOf (run (List.take 5 pairTrace)) 0 = some wu ∧ wu.email ≠ uB.email) ∧
    (step (run (List.take 5 pairTrace)) (Event.search 1 true)).2.notifs
      = [(1, Notif.matched "room-1-0"), (0, Notif.matched "room-1-0")] := by
  have h := (C2_earliest_distinct_partner (run (List.take 5 pairTrace)) 1 uB
    (by decide) (by decide)).2 0 (by decide)
  refine ⟨h.1, ?_⟩
  rw [h.2.2]
  rfl

/-- C3 counterexample: in the reachable state `run (List.take 9 breakTrace)`
socket 1 has an active session with socket 0, yet its further `search`
request is NOT ignored — it changes the Session Table and re-points socket
1's own entry at socket 2. -/
theorem C3_search_ignored_counterexample :
    mapGet (run (List.take 9 breakTrace)).activeChats 1 = some ⟨0, "room-1-0"⟩ ∧
    (step (run (List.take 9 breakTrace)) (Event.search 1 true)).1.activeChats
      ≠ (run (List.take 9 breakTrace)).activeChats ∧
    mapGet ((step (run (List.take 9 breakTrace)) (Event.search 1 true)).1).activeChats 1
      = some ⟨2, "room-1-2"⟩ :=
  ⟨rfl, by decide, rfl⟩

/-- C3 (amended): the `search` handler has no already-matched guard, so a
search from a connection with an active Session is processed like any
other: if the queue holds an eligible partner the requester's Session Table
entry is overwritten with the new room (entries of sockets other than the
requester and the new partner, in particular the old partner's, are left
untouched and now stale), and if no partner is eligible the already-matched
requester is enqueued into the Waiting Pool. -/
theorem C3_search_while_matched (st : ServerState) (sid : Nat) (u : UserT)
    (ci : ChatInfo) (hu : userOf st sid = some u)
    (hm : mapGet st.activeChats sid = some ci)
    (hnq : st.waitingUsers.contains sid = false) :
    (∀ pid,
      st.waitingUsers[st.waitingUsers.findIdx (eligibleFor st u.email)]? = some pid →
      mapGet ((step st (Event.search sid true)).1).activeChats sid
          = some ⟨pid, roomIdFor sid pid⟩ ∧
      (∀ x, x ≠ sid → x ≠ pid →
        mapGet ((step st (Event.search sid true)).1).activeChats x
          = mapGet st.activeChats x)) ∧
    (st.waitingUsers[st.waitingUsers.findIdx (eligibleFor st u.email)]? = none →
      (step st (Event.search sid true)).1.waitingUsers = st.waitingUsers ++ [sid]) := by
  constructor
  · intro pid hq
    have hpidq : pid ∈ st.waitingUsers := List.getElem?_mem hq
    have hpidsid : pid ≠ sid := fun hh =>
      (not_mem_of_contains_false hnq) (hh ▸ hpidq)
    rw [step_search st sid true (connectedB_of_userOf hu), searchStep_found hu hnq hq]
    constructor
    · show mapGet (mapSet (mapSet st.activeChats sid ⟨pid, roomIdFor sid pid⟩) pid
        ⟨sid, roomIdFor sid pid⟩) sid = some ⟨pid, roomIdFor sid pid⟩
      rw [mapGet_set_ne _ _ _ _ (Ne.symm hpidsid), mapGet_set_self]
    · intro x hxs hxp
      show mapGet (mapSet (mapSet st.activeChats sid ⟨pid, roomIdFor sid pid⟩) pid
        ⟨sid, roomIdFor sid pid⟩) x = mapGet st.activeChats x
      rw [mapGet_set_ne _ _ _ _ hxp, mapGet_set_ne _ _ _ _ hxs]
  · intro hq
    rw [step_search st sid true (connectedB_of_userOf hu), searchStep_enqueue hu hnq hq]

theorem C3_search_while_matched_witness :
    mapGet ((step (run (List.take 9 breakTrace)) (Event.search 1 true)).1).activeChats 1
      = some ⟨2, roomIdFor 1 2⟩ ∧
    mapGet ((step (run (List.take 9 breakTrace)) (Event.search 1 true)).1).activeChats 0
      = mapGet (run (List.take 9 breakTrace)).activeChats 0 := by
  have h := (C3_search_while_matched (run (List.take 9 breakTrace)) 1 uB ⟨0, "room-1-0"⟩
    (by decide) (by decide) (by decide)).1 2 (by decide)
  exact ⟨h.1, h.2 0 (by decide) (by decide)⟩

/-- C4: (i) in every reachable state the Waiting Pool holds each connection
at most once (the queue is duplicate-free after any event trace), and
(ii) a `search` from a connection already in the pool re-emits `searching`
and changes nothing. -/
theorem C4_no_duplicate_waiting :
    (∀ es : List Event, (run es).waitingUsers.Nodup) ∧
    (∀ (st : ServerState) (sid : Nat) (u : UserT), userOf st sid = some u →
      st.waitingUsers.contains sid = true →
      step st (Event.search sid true) = (st, ⟨[(sid, Notif.searching)], []⟩)) := by
  constructor
  · exact nodup_run
  · intro st sid u hu hc
    rw [step_search st sid true (connectedB_of_userOf hu), searchStep_dup hu hc]

theorem C4_no_duplicate_waiting_witness :
    (run (List.take 5 pairTrace)).waitingUsers.Nodup ∧
    step (run (List.take 5 pairTrace)) (Event.search 0 true)
      = (run (List.take 5 pairTrace), ⟨[(0, Notif.searching)], []⟩) :=
  ⟨C4_no_duplicate_waiting.1 (List.take 5 pairTrace),
   C4_no_duplicate_waiting.2 (run (List.take 5 pairTrace)) 0 uA (by decide) (by decide)⟩

/-- C5 counterexample: in the reachable state `run idleTrace` socket 0 is
Idle (authenticated, not waiting, not matched), yet its `stopSearch` is
answered with a `searchStopped` notification — the claim's "no-op with no
notification" branch does not exist in the code. -/
theorem C5_stopSearch_counterexample :
    (0 ∈ (run idleTrace).waitingUsers) = False ∧
    mapGet (run idleTrace).activeChats 0 = none ∧
    (step (run idleTrace) (Event.stopSearch 0)).2.notifs = [(0, Notif.searchStopped)] := by
  refine ⟨?_, rfl, rfl⟩
  simp only [eq_iff_iff, iff_false]
  decide

/-- C5 (amended): `stopSearch` from a Searching connection removes it from
the Waiting Pool, and the `searchStopped` notification is emitted to the
requester UNCONDITIONALLY — also from the Idle or Matched state, where the
pool and session table are left unchanged (the whole state is unchanged
when the requester was not waiting). -/
theorem C5_stopSearch_behavior (st : ServerState) (sid : Nat)
    (hcb : connectedB st sid = true) (hnd : st.waitingUsers.Nodup) :
    (step st (Event.stopSearch sid)).2.notifs = [(sid, Notif.searchStopped)] ∧
    sid ∉ (step st (Event.stopSearch sid)).1.waitingUsers ∧
    (step st (Event.stopSearch sid)).1.activeChats = st.activeChats ∧
    (sid ∉ st.waitingUsers → (step st (Event.stopSearch sid)).1 = st) := by
  rw [step_stopSearch st sid hcb]
  refine ⟨rfl, ?_, rfl, ?_⟩
  · show sid ∉ removeFirst st.waitingUsers sid
    exact not_mem_removeFirst hnd
  · intro hns
    show ({ st with waitingUsers := removeFirst st.waitingUsers sid } : ServerState) = st
    rw [removeFirst_of_not_mem hns]

theorem C5_stopSearch_behavior_witness :
    (step (run idleTrace) (Event.stopSearch 0)).2.notifs = [(0, Notif.searchStopped)] ∧
    (step (run idleTrace) (Event.stopSearch 0)).1 = run idleTrace := by
  have h := C5_stopSearch_behavior (run idleTrace) 0 (by decide) (by decide)
  exact ⟨h.1, h.2.2.2 (by decide)⟩

/-- C6: `sendMessage` is a complete no-op — nothing delivered, nothing
persisted, no error to the sender, state untouched — whenever the sender
has no `activeChats` entry, or the content is not a string, or the content
is the empty string. -/
theorem C6_relay_noop (st : ServerState) (sid : Nat) (content : Content) (r : Bool)
    (now : Nat)
    (h : mapGet st.activeChats sid = none ∨ content = Content.nonStr ∨
      content = Content.str "") :
    step st (Event.sendMessage sid content r now) = (st, ⟨[], []⟩) := by
  by_cases hcb : connectedB st sid = true
  · rw [step_sendMessage st sid content r now hcb]
    cases r with
    | false => exact sendMessageStep_rateLimited st sid content now
    | true =>
      rcases h with h1 | h2 | h3
      · exact sendMessageStep_noChat content now h1
      · subst h2
        cases hci : mapGet st.activeChats sid with
        | none => exact sendMessageStep_noChat _ now hci
        | some ci =>
          cases hu : userOf st sid with
          | none => exact sendMessageStep_noUser _ now hci hu
          | some u => exact sendMessageStep_nonStr now hci hu
      · subst h3
        cases hci : mapGet st.activeChats sid with
        | none => exact sendMessageStep_noChat _ now hci
        | some ci =>
          cases hu : userOf st sid with
          | none => exact sendMessageStep_noUser _ now hci hu
          | some u =>
            rw [sendMessageStep_str "" now hci hu, if_pos (by decide)]
  · exact step_sendMessage_nc st sid content r now hcb

theorem C6_relay_noop_witness :
    step (run idleTrace) (Event.sendMessage 0 (Content.str "hi") true 5)
      = (run idleTrace, ⟨[], []⟩) :=
  C6_relay_noop (run idleTrace) 0 (Content.str "hi") true 5 (Or.inl (by decide))

/-- C7 counterexample: in the matched state `run pairTrace`, socket 0 sends
the non-empty string " " — no `receiveMessage` is emitted at all, because
the handler drops whitespace-only content after trimming. -/
theorem C7_relay_counterexample :
    mapGet (run pairTrace).activeChats 0 = some ⟨1, "room-1-0"⟩ ∧
    (" " = "") = False ∧
    (step (run pairTrace) (Event.sendMessage 0 (Content.str " ") true 7)).2.notifs = [] := by
  refine ⟨rfl, ?_, rfl⟩
  simp only [eq_iff_iff, iff_false]
  decide

/-- C7 (amended): a `sendMessage` from a Matched, authenticated connection
whose content is a string with non-empty sanitized form (trimmed, truncated
to `MAX_MESSAGE_LENGTH`) produces exactly one `receiveMessage` carrying the
sanitized content, the server timestamp and the sender's identity
reference, delivered to the partner connection only (the room minus the
sender is exactly the partner); the sender receives nothing, and the state
is unchanged. -/
theorem C7_relay_delivery (st : ServerState) (sid : Nat) (ci : ChatInfo) (u : UserT)
    (s : String) (now : Nat)
    (h1 : mapGet st.activeChats sid = some ci) (h2 : userOf st sid = some u)
    (h3 : sanitizeInput s MAX_MESSAGE_LENGTH ≠ "")
    (h4 : (roomMembers st.rooms ci.roomId).filter (fun x => x ≠ sid) = [ci.partnerId]) :
    step st (Event.sendMessage sid (Content.str s) true now)
      = (st, ⟨[(ci.partnerId,
                Notif.receiveMessage u.uid (sanitizeInput s MAX_MESSAGE_LENGTH) now)],
              [⟨ci.roomId, u.uid, sanitizeInput s MAX_MESSAGE_LENGTH⟩]⟩) := by
  rw [step_sendMessage st sid _ true now (connectedB_of_userOf h2),
    sendMessageStep_str s now h1 h2,
    if_neg (fun hh => h3 (string_length_zero hh)), h4]
  rfl

theorem C7_relay_delivery_witness :
    step (run pairTrace) (Event.sendMessage 0 (Content.str " hi ") true 9)
      = (run pairTrace,
         ⟨[(1, Notif.receiveMessage uA.uid "hi" 9)], [⟨"room-1-0", uA.uid, "hi"⟩]⟩) := by
  have h := C7_relay_delivery (run pairTrace) 0 ⟨1, "room-1-0"⟩ uA " hi " 9
    (by decide) (by decide) (by decide) (by decide)
  rw [h]
  rfl

/-- C8 counterexample: socket 0 is connected but has no attached Identity;
its `sendMessage` is silently dropped — no `unauthorized` notification is
emitted and the connection is not dropped, contrary to the claim. -/
theorem C8_unauthorized_counterexample :
    userOf (run unauthTrace) 0 = none ∧
    (step (run unauthTrace) (Event.sendMessage 0 (Content.str "hi") true 3)).2.notifs = [] ∧
    connectedB ((step (run unauthTrace)
      (Event.sendMessage 0 (Content.str "hi") true 3)).1) 0 = true :=
  ⟨rfl, rfl, rfl⟩

/-- C8 (amended): for a connected socket with no attached Identity, only
`search` answers with an `unauthorized` notification — and even there the
connection is NOT dropped; `sendMessage` is silently dropped, and `endChat`
(whose guard is only the session lookup, which finds nothing for an
unauthenticated socket in reachable states) is a silent no-op.  In all
three cases no core state changes. -/
theorem C8_unauthenticated_requests (st : ServerState) (sid : Nat)
    (hcb : connectedB st sid = true) (hu : userOf st sid = none) :
    (∀ r, step st (Event.search sid r) = (st, ⟨[(sid, Notif.unauthorized)], []⟩)) ∧
    (∀ c r now, step st (Event.sendMessage sid c r now) = (st, ⟨[], []⟩)) ∧
    (mapGet st.activeChats sid = none →
      step st (Event.endChat sid) = (st, ⟨[], []⟩)) := by
  refine ⟨?_, ?_, ?_⟩
  · intro r
    rw [step_search st sid r hcb, searchStep_unauth r hu]
  · intro c r now
    rw [step_sendMessage st sid c r now hcb]
    cases r with
    | false => exact sendMessageStep_rateLimited st sid c now
    | true =>
      cases hci : mapGet st.activeChats sid with
      | none => exact sendMessageStep_noChat c now hci
      | some ci => exact sendMessageStep_noUser c now hci hu
  · intro hci
    rw [step_endChat st sid hcb, endChatStep_noChat hci]

theorem C8_unauthenticated_requests_witness :
    step (run unauthTrace) (Event.search 0 true)
      = (run unauthTrace, ⟨[(0, Notif.unauthorized)], []⟩) ∧
    step (run unauthTrace) (Event.endChat 0) = (run unauthTrace, ⟨[], []⟩) := by
  have h := C8_unauthenticated_requests (run unauthTrace) 0 (by decide) (by decide)
  exact ⟨h.1 true, h.2.2 (by decide)⟩

/-- C9: (i) when connection `a` disconnects while in a Session whose
registry entry names partner `b` and whose room (after socket.io removes
`a` from its rooms) reaches exactly `b`, then `b` is sent exactly one
`partnerDisconnected`, both session entries are removed in that same
transition, and any subsequent `sendMessage` from `a` has no effect;
(ii) a disconnecting connection is removed from the Waiting Pool, and over
any subsequent event sequence that never reconnects the same socket id it
stays out of the pool and never acquires a session entry — it can never be
matched after disconnecting. -/
theorem C9_post_disconnect_silence :
    (∀ (st : ServerState) (a : Nat) (ci : ChatInfo),
      connectedB st a = true →
      mapGet st.activeChats a = some ci →
      ((roomMembers (leaveAll st.rooms a) ci.roomId).filter (fun x => x ≠ a))
          = [ci.partnerId] →
      (step st (Event.disconnect a)).2.notifs
          = [(ci.partnerId, Notif.partnerDisconnected)] ∧
      mapGet (step st (Event.disconnect a)).1.activeChats a = none ∧
      mapGet (step st (Event.disconnect a)).1.activeChats ci.partnerId = none ∧
      (∀ c r now, step (step st (Event.disconnect a)).1 (Event.sendMessage a c r now)
          = ((step st (Event.disconnect a)).1, ⟨[], []⟩))) ∧
    (∀ (st : ServerState) (a : Nat), connectedB st a = true →
      st.waitingUsers.Nodup →
      ∀ es : List Event, (∀ e ∈ es, e ≠ Event.connect a) →
        a ∉ (runFrom (step st (Event.disconnect a)).1 es).waitingUsers ∧
        mapGet (runFrom (step st (Event.disconnect a)).1 es).activeChats a = none) := by
  constructor
  · intro st a ci hcb hci hroom
    rw [step_disconnect st a hcb, disconnectStep_some hci]
    refine ⟨?_, ?_, ?_, ?_⟩
    · show ((roomMembers (leaveAll st.rooms a) ci.roomId).filter (fun x => x ≠ a)).map
        (fun x => (x, Notif.partnerDisconnected)) = _
      rw [hroom]
      rfl
    · show mapGet (mapDel (mapDel st.activeChats a) ci.partnerId) a = none
      exact mapGet_del_of_none (mapGet_del_self _ _)
    · show mapGet (mapDel (mapDel st.activeChats a) ci.partnerId) ci.partnerId = none
      exact mapGet_del_self _ _
    · intro c r now
      refine step_sendMessage_nc _ a c r now ?_
      intro hh
      rw [show connectedB
          ({ conns := mapDel st.conns a, waitingUsers := removeFirst st.waitingUsers a,
             activeChats := mapDel (mapDel st.activeChats a) ci.partnerId,
             rooms := leaveAll st.rooms a } : ServerState) a = false from
        not_connected_of_conns_none (mapGet_del_self _ _)] at hh
      cases hh
  · intro st a hcb hnd es hne
    have h1 : connectedB (step st (Event.disconnect a)).1 a = false := by
      rw [step_disconnect st a hcb]
      cases hci : mapGet st.activeChats a with
      | none =>
        rw [disconnectStep_noChat hci]
        exact not_connected_of_conns_none (mapGet_del_self _ _)
      | some ci =>
        rw [disconnectStep_some hci]
        exact not_connected_of_conns_none (mapGet_del_self _ _)
    have h2 : a ∉ (step st (Event.disconnect a)).1.waitingUsers := by
      have hqq : (step st (Event.disconnect a)).1.waitingUsers
          = removeFirst st.waitingUsers a := by
        rw [step_disconnect st a hcb]
        exact disconnectStep_queue st a
      rw [hqq]
      exact not_mem_removeFirst hnd
    have h3 : mapGet (step st (Event.disconnect a)).1.activeChats a = none := by
      rw [step_disconnect st a hcb]
      cases hci : mapGet st.activeChats a with
      | none => rw [disconnectStep_noChat hci]; exact hci
      | some ci =>
        rw [disconnectStep_some hci]
        exact mapGet_del_of_none (mapGet_del_self _ _)
    have hrest := gone_runFrom es a (step st (Event.disconnect a)).1 h1 h2 h3 hne
    exact ⟨hrest.2.1, hrest.2.2⟩

theorem C9_post_disconnect_silence_witness :
    (step (run pairTrace) (Event.disconnect 0)).2.notifs
        = [(1, Notif.partnerDisconnected)] ∧
    mapGet (step (run pairTrace) (Event.disconnect 0)).1.activeChats 0 = none ∧
    step (step (run pairTrace) (Event.disconnect 0)).1
        (Event.sendMessage 0 (Content.str "late") true 11)
      = ((step (run pairTrace) (Event.disconnect 0)).1, ⟨[], []⟩) ∧
    0 ∉ (runFrom (step (run pairTrace) (Event.disconnect 0)).1
        [Event.search 1 true]).waitingUsers := by
  have h1 := C9_post_disconnect_silence.1 (run pairTrace) 0 ⟨1, "room-1-0"⟩
    (by decide) (by decide) (by decide)
  have h2 := C9_post_disconnect_silence.2 (run pairTrace) 0 (by decide) (by decide)
    [Event.search 1 true] (by decide)
  exact ⟨h1.1, h1.2.1, h1.2.2.2 (Content.str "late") true 11, h2.1⟩

/-- C10: what the relay hands to the partner and to the Persistence Sink is
the sanitized form of the sender's string — trimmed of surrounding
whitespace and truncated to `MAX_MESSAGE_LENGTH` (1000) characters — so
whenever that differs from the original the partner receives the
transformed string, and a message whose sanitized form is empty (e.g. a
whitespace-only message) is dropped entirely. -/
theorem C10_sanitized_content (st : ServerState) (sid : Nat) (ci : ChatInfo) (u : UserT)
    (s : String) (now : Nat)
    (h1 : mapGet st.activeChats sid = some ci) (h2 : userOf st sid = some u) :
    (sanitizeInput s MAX_MESSAGE_LENGTH = "" →
      step st (Event.sendMessage sid (Content.str s) true now) = (st, ⟨[], []⟩)) ∧
    (sanitizeInput s MAX_MESSAGE_LENGTH ≠ "" →
      (step st (Event.sendMessage sid (Content.str s) true now)).2.persisted
        = [⟨ci.roomId, u.uid, sanitizeInput s MAX_MESSAGE_LENGTH⟩] ∧
      (∀ x n, (x, n) ∈ (step st (Event.sendMessage sid (Content.str s) true now)).2.notifs →
        n = Notif.receiveMessage u.uid (sanitizeInput s MAX_MESSAGE_LENGTH) now)) := by
  constructor
  · intro hempty
    rw [step_sendMessage st sid _ true now (connectedB_of_userOf h2),
      sendMessageStep_str s now h1 h2, if_pos (by rw [hempty]; rfl)]
  · intro hne
    rw [step_sendMessage st sid _ true now (connectedB_of_userOf h2),
      sendMessageStep_str s now h1 h2,
      if_neg (fun hh => hne (string_length_zero hh))]
    refine ⟨rfl, ?_⟩
    intro x n hmem
    rcases List.mem_map.mp hmem with ⟨y, hy, hxy⟩
    exact (congrArg Prod.snd hxy).symm

theorem C10_sanitized_content_witness :
    (step (run pairTrace)
        (Event.sendMessage 0 (Content.str "  spaced out  ") true 4)).2.persisted
      = [⟨"room-1-0", uA.uid, "spaced out"⟩] ∧
    step (run pairTrace) (Event.sendMessage 0 (Content.str "   ") true 4)
      = (run pairTrace, ⟨[], []⟩) := by
  have h := C10_sanitized_content (run pairTrace) 0 ⟨1, "room-1-0"⟩ uA "  spaced out  " 4
    (by decide) (by decide)
  have h2 := C10_sanitized_content (run pairTrace) 0 ⟨1, "room-1-0"⟩ uA "   " 4
    (by decide) (by decide)
  refine ⟨?_, h2.1 (by decide)⟩
  rw [(h.2 (by decide)).1]
  rfl
